import Mathlib

/-!
Verification of the `rsult` library: a shallow embedding of the synchronous
`Option`/`Result` sum types (`src/option.ts`, `src/result.ts`) and of the
asynchronous wrapper layer (`src/option-async.ts`, `src/result-async.ts`),
together with proofs of the specification's claims about them.

Modelling conventions:
* A settled JavaScript promise of `A` is modelled as `Except ε A`: `.ok`
  is fulfilment, `.error` is rejection with the thrown value.  Thrown
  `Error` objects are modelled by their message string.
* `await` of a settled promise yields its fulfilment value or rethrows the
  rejection; in the model this is the identity on `Except`, and binding of
  a dependent computation is `Except` bind.
* Side effects of user callbacks are made observable where a claim needs
  them, by an explicitly threaded state (for the synchronous types) or by a
  log of callback runs (for the asynchronous wrappers).  The instrumented
  definitions follow the control flow of the source line by line.
-/

set_option maxHeartbeats 1000000

-- ============================================================================
-- Synchronous sum types (src/option.ts, src/result.ts), value level
-- ============================================================================

/-- The value of an `Option<T>`: `Some(value)` or `None`.  (`src/option.ts`) -/
inductive Opt (T : Type) where
  | some (value : T)
  | none
deriving Repr, DecidableEq

/-- The value of a `Result<T, E>`: `Ok(value)` or `Err(value)`.  (`src/result.ts`) -/
inductive Res (T E : Type) where
  | ok (value : T)
  | err (value : E)
deriving Repr, DecidableEq

namespace Opt

/-- `OptionSome.is_some` returns `true`; `OptionNone.is_some` returns `false`. -/
def is_some : Opt T → Bool
  | .some _ => true
  | .none => false

/-- `OptionSome.is_none` returns `false`; `OptionNone.is_none` returns `true`. -/
def is_none : Opt T → Bool
  | .some _ => false
  | .none => true

/-- `map`: on `Some`, `new OptionSome(fn(this.value))`; on `None`,
`new OptionNone<U>()` (the callback is not mentioned in that branch). -/
def map (o : Opt T) (fn : T → U) : Opt U :=
  match o with
  | .some v => .some (fn v)
  | .none => .none

/-- `and_then`: on `Some`, `fn(this.value)`; on `None`, `new OptionNone<U>()`. -/
def and_then (o : Opt T) (fn : T → Opt U) : Opt U :=
  match o with
  | .some v => fn v
  | .none => .none

/-- State-instrumented translation of `map`: the callback threads an explicit
effect state `s`, so that "the callback was never invoked" is visible as the
state being returned untouched.  The `Some` branch runs the callback once on
the held value; the `None` branch's body (`return new OptionNone<U>()`) does
not mention the callback, so the state passes through unchanged. -/
def mapS (o : Opt T) (s : σ) (fn : σ → T → σ × U) : σ × Opt U :=
  match o with
  | .some v =>
      let p := fn s v
      (p.1, .some p.2)
  | .none => (s, .none)

/-- `OptionSome.expect` returns `this.value`; `OptionNone.expect` does
`throw new Error(msg)` (the thrown `Error` is modelled by its message). -/
def expect (o : Opt T) (msg : String) : Except String T :=
  match o with
  | .some v => .ok v
  | .none => .error msg

/-- `OptionSome.unwrap` returns `this.value`; `OptionNone.unwrap` does
`throw new Error('Called Option.unwrap() on a None value')`. -/
def unwrap (o : Opt T) : Except String T :=
  match o with
  | .some v => .ok v
  | .none => .error "Called Option.unwrap() on a None value"

end Opt

namespace Res

/-- `ResultOk.is_ok` returns `true`; `ResultErr.is_ok` returns `false`. -/
def is_ok : Res T E → Bool
  | .ok _ => true
  | .err _ => false

/-- `ResultOk.is_err` returns `false`; `ResultErr.is_err` returns `true`. -/
def is_err : Res T E → Bool
  | .ok _ => false
  | .err _ => true

/-- `map`: on `Ok`, `new ResultOk(fn(this.value))`; on `Err`,
`new ResultErr<U, E>(this.value)` (the callback is not mentioned there). -/
def map (r : Res T E) (fn : T → U) : Res U E :=
  match r with
  | .ok v => .ok (fn v)
  | .err e => .err e

/-- `and_then`: on `Ok`, `fn(this.value)`; on `Err`,
`new ResultErr<U, E>(this.value)` — the same error payload, rewrapped. -/
def and_then (r : Res T E) (fn : T → Res U E) : Res U E :=
  match r with
  | .ok v => fn v
  | .err e => .err e

/-- State-instrumented translation of `and_then`: the callback threads an
explicit effect state.  The `Err` branch's body
(`return new ResultErr<U, E>(this.value)`) does not mention the callback, so
the state passes through unchanged and the error payload is preserved. -/
def and_thenS (r : Res T E) (s : σ) (fn : σ → T → σ × Res U E) : σ × Res U E :=
  match r with
  | .ok v => fn s v
  | .err e => (s, .err e)

/-- `ResultOk.expect` returns `this.value`; `ResultErr.expect` does
`throw new Error(msg)`. -/
def expect (r : Res T E) (msg : String) : Except String T :=
  match r with
  | .ok v => .ok v
  | .err _ => .error msg

/-- `ResultOk.unwrap` returns `this.value`; `ResultErr.unwrap` throws
`'Called Result.unwrap() on an Err value: ' + this.value`, i.e. the fixed
text followed by the JavaScript string form of the error payload, supplied
here as `es`. -/
def unwrap (r : Res T E) (es : E → String) : Except String T :=
  match r with
  | .ok v => .ok v
  | .err e => .error ("Called Result.unwrap() on an Err value: " ++ es e)

end Res

example : Opt.map (Opt.some 3) (fun x => x + 4) = Opt.some 7 := by decide
example : Res.and_then (Res.err "e") (fun x : Nat => Res.ok (x + 1)) = Res.err "e" := rfl

-- ============================================================================
-- Option instances as mutable objects (src/option.ts, take / replace)
-- ============================================================================

/-- A runtime `Option` object.  A JavaScript object's class never changes, so
the variant is fixed at construction; only the `value` field of an
`OptionSome` instance can be reassigned (`take` stores `undefined` into it).
The field is therefore modelled as `Option T`, with `Option.none` standing
for `undefined`.  `Some(val)` constructs `someObj (Option.some val)`. -/
inductive OptObj (T : Type) where
  | someObj (value : Option T)
  | noneObj
deriving Repr, DecidableEq

namespace OptObj

/-- Variant test on an object: an `OptionSome` instance answers `false` to
`is_none()` no matter what its `value` field holds. -/
def is_none : OptObj T → Bool
  | .someObj _ => false
  | .noneObj => true

/-- Variant test on an object: `is_some()` is decided by the class alone. -/
def is_some : OptObj T → Bool
  | .someObj _ => true
  | .noneObj => false

/-- `take`, returning the updated receiver and the returned option.
`OptionSome.take`: `const value = this.value; this.value = undefined;
return new OptionSome(value)` — the receiver stays an `OptionSome` whose
field now holds `undefined`.  `OptionNone.take`: `return this`. -/
def take : OptObj T → OptObj T × OptObj T
  | .someObj v => (.someObj Option.none, .someObj v)
  | .noneObj => (.noneObj, .noneObj)

/-- `replace`, returning the updated receiver and the returned option.
`OptionSome.replace`: `const oldValue = this.value; this.value = value;
return new OptionSome(oldValue)`.  `OptionNone.replace`:
`return new OptionSome(value)` with the receiver untouched. -/
def replace (x : T) : OptObj T → OptObj T × OptObj T
  | .someObj v => (.someObj (Option.some x), .someObj v)
  | .noneObj => (.noneObj, .someObj (Option.some x))

end OptObj

-- ============================================================================
-- Asynchronous wrappers, settled-value level
-- (src/result-async.ts, src/option-async.ts)
-- ============================================================================

namespace ResultAsync

/-- `ResultAsync.fromResult(result)`: `new ResultAsync(Promise.resolve(result))`
— a wrapper whose promise fulfils with exactly the given result. -/
def fromResult (r : Res T E) : Except String (Res T E) :=
  .ok r

/-- `ResultAsync.try(fn, errorFn)` with the optional `errorFn` supplied: the
callback's outcome (`await fn()`, which surfaces both synchronous throws and
rejections of a returned promise as the caught value, here of type `ε`) is
converted by the `try`/`catch` into `Ok(value)` or `Err(errorFn(error))`;
the wrapper's promise itself always fulfils. -/
def tryCatchWith (fn : Except ε T) (errorFn : ε → E) : Except String (Res T E) :=
  .ok (match fn with
    | .ok v => .ok v
    | .error e => .err (errorFn e))

/-- `ResultAsync.try(fn)` without `errorFn`: the caught value is stored as the
error unchanged (`error as E`). -/
def tryCatch (fn : Except ε T) : Except String (Res T ε) :=
  .ok (match fn with
    | .ok v => .ok v
    | .error e => .err e)

/-- `ResultAsync.expect(msg)`: `await this.promise` (rethrowing a rejection),
then `result.expect(msg)`; a throw there rejects the returned promise. -/
def expect (p : Except String (Res T E)) (msg : String) : Except String T :=
  match p with
  | .error x => .error x
  | .ok r => Res.expect r msg

/-- `ResultAsync.unwrap()`: `await this.promise`, then `result.unwrap()`. -/
def unwrap (p : Except String (Res T E)) (es : E → String) : Except String T :=
  match p with
  | .error x => .error x
  | .ok r => Res.unwrap r es

/-- The loop of `ResultAsync.all`: `for (const resultAsync of results)` awaits
each handle in index order (`n` counts the awaits issued; an await of a
rejected handle rethrows, rejecting the aggregate), returns the `Err` result
itself as soon as `result.is_err()`, and otherwise pushes `result.value` onto
`values`; after the loop it returns `Ok(values)`. -/
def allGo : List (Except String (Res T E)) → List T → Nat →
    Except String (Res (List T) E) × Nat
  | [], values, n => (.ok (.ok values), n)
  | h :: rest, values, n =>
      match h with
      | .error x => (.error x, n + 1)
      | .ok r =>
          match r with
          | .err e => (.ok (.err e), n + 1)
          | .ok v => allGo rest (values ++ [v]) (n + 1)

/-- `ResultAsync.all(results)`: the settled value of the aggregate wrapper. -/
def all (results : List (Except String (Res T E))) : Except String (Res (List T) E) :=
  (allGo results [] 0).1

/-- The number of handles `ResultAsync.all` awaits for the given input. -/
def allAwaited (results : List (Except String (Res T E))) : Nat :=
  (allGo results [] 0).2

/-- The loop of `ResultAsync.allSettled`: every handle is awaited in index
order; `Err` payloads are pushed onto `errors`, `Ok` payloads onto `values`;
after the loop, `Err(errors)` if `errors.length > 0`, else `Ok(values)`. -/
def allSettledGo : List (Except String (Res T E)) → List T → List E → Nat →
    Except String (Res (List T) (List E)) × Nat
  | [], values, errors, n =>
      (if errors.length > 0 then .ok (.err errors) else .ok (.ok values), n)
  | h :: rest, values, errors, n =>
      match h with
      | .error x => (.error x, n + 1)
      | .ok r =>
          match r with
          | .err e => allSettledGo rest values (errors ++ [e]) (n + 1)
          | .ok v => allSettledGo rest (values ++ [v]) errors (n + 1)

/-- `ResultAsync.allSettled(results)`: the settled value of the aggregate. -/
def allSettled (results : List (Except String (Res T E))) :
    Except String (Res (List T) (List E)) :=
  (allSettledGo results [] [] 0).1

/-- The number of handles `ResultAsync.allSettled` awaits for the given input. -/
def allSettledAwaited (results : List (Except String (Res T E))) : Nat :=
  (allSettledGo results [] [] 0).2

end ResultAsync

/-- `ResultOk.prototype.toAsync` / `ResultErr.prototype.toAsync`:
`ResultAsync.fromResult(this)`. -/
def Res.toAsync (r : Res T E) : Except String (Res T E) :=
  ResultAsync.fromResult r

namespace OptionAsync

/-- `OptionAsync.fromOption(option)`: a wrapper whose promise fulfils with
exactly the given option. -/
def fromOption (o : Opt T) : Except String (Opt T) :=
  .ok o

/-- `OptionAsync.try(fn)`: the callback's outcome is converted by the
`try`/`catch` into `Some(value)` or, for any caught value, `None`. -/
def tryCatch (fn : Except ε T) : Except String (Opt T) :=
  .ok (match fn with
    | .ok v => .some v
    | .error _ => .none)

/-- `OptionAsync.expect(msg)`: `await this.promise`, then `option.expect(msg)`;
on `None` the throw rejects the returned promise with the message. -/
def expect (p : Except String (Opt T)) (msg : String) : Except String T :=
  match p with
  | .error x => .error x
  | .ok o => Opt.expect o msg

/-- `OptionAsync.unwrap()`: `await this.promise`, then `option.unwrap()`. -/
def unwrap (p : Except String (Opt T)) : Except String T :=
  match p with
  | .error x => .error x
  | .ok o => Opt.unwrap o

/-- The loop of `OptionAsync.all`: awaits each handle in index order, returns
`None()` as soon as `option.is_none()`, otherwise pushes `option.value`;
after the loop returns `Some(values)`. -/
def allGo : List (Except String (Opt T)) → List T → Nat →
    Except String (Opt (List T)) × Nat
  | [], values, n => (.ok (.some values), n)
  | h :: rest, values, n =>
      match h with
      | .error x => (.error x, n + 1)
      | .ok o =>
          match o with
          | .none => (.ok .none, n + 1)
          | .some v => allGo rest (values ++ [v]) (n + 1)

/-- `OptionAsync.all(options)`: the settled value of the aggregate wrapper. -/
def all (options : List (Except String (Opt T))) : Except String (Opt (List T)) :=
  (allGo options [] 0).1

/-- The number of handles `OptionAsync.all` awaits for the given input. -/
def allAwaited (options : List (Except String (Opt T))) : Nat :=
  (allGo options [] 0).2

end OptionAsync

/-- `OptionSome.prototype.toAsync` / `OptionNone.prototype.toAsync`:
`OptionAsync.fromOption(this)`. -/
def Opt.toAsync (o : Opt T) : Except String (Opt T) :=
  OptionAsync.fromOption o

example :
    ResultAsync.all
      [ResultAsync.fromResult (Res.ok 1),
       ResultAsync.fromResult (Res.err "x"),
       ResultAsync.fromResult ((Res.ok 3 : Res Nat String))] =
    .ok (Res.err "x") := rfl

example :
    ResultAsync.allSettled
      [ResultAsync.fromResult ((Res.ok 1 : Res Nat String)),
       ResultAsync.fromResult (Res.err "a"),
       ResultAsync.fromResult (Res.err "b")] =
    .ok (Res.err ["a", "b"]) := rfl

-- ============================================================================
-- Asynchronous wrappers as resolution cells with an effect log
-- ============================================================================

/-- A `ResultAsync` wrapper instance together with the observable effects of
its construction.  A wrapper holds exactly one `private readonly promise`
field; the execution substrate settles that cell exactly once (spec §6 (i)
and glossary: a pending computation is "resolved exactly once"), so the cell
is modelled by its single settlement `settled`.  Continuations attached by
chaining methods (e.g. the callback of `inspect`) run exactly when the cell
they were attached to settles; `runs` records, in order, the labels of the
side-effecting callbacks that ran while the chain settled. -/
structure RAobj (T E : Type) where
  settled : Except String (Res T E)
  runs : List Nat
deriving Repr

namespace RAobj

/-- `ResultAsync.ok(value)`: a wrapper over `Promise.resolve(Ok(value))`;
no callback runs during its construction. -/
def okW (v : T) : RAobj T E :=
  ⟨.ok (.ok v), []⟩

/-- `ResultAsync.err(error)`: a wrapper over `Promise.resolve(Err(error))`. -/
def errW (e : E) : RAobj T E :=
  ⟨.ok (.err e), []⟩

/-- `inspect(fn)`: builds a new wrapper from `this.promise.then(result => {
if (result.is_ok()) fn(result.value); return result })`.  The continuation
is attached once and therefore runs once, when the single settlement of
`this.promise` happens: if the promise fulfilled with an `Ok`, the callback
(identified by its label) runs; on an `Err` it is skipped; on a rejected
promise the `then` continuation never runs.  The settled value is returned
unchanged. -/
def inspectW (w : RAobj T E) (label : Nat) : RAobj T E :=
  ⟨w.settled,
   w.runs ++
     match w.settled with
     | .ok r =>
         match r with
         | .ok _ => [label]
         | .err _ => []
     | .error _ => []⟩

/-- `map(fn)` for a pure callback `f`: builds a new wrapper from
`this.promise.then(...)` — it reuses the same settled cell (no producer is
re-run, so no already-recorded callback runs again) and rewraps the `Ok`
payload through `f`. -/
def mapW (w : RAobj T E) (f : T → U) : RAobj U E :=
  ⟨match w.settled with
    | .error x => .error x
    | .ok r =>
        match r with
        | .ok v => .ok (.ok (f v))
        | .err e => .ok (.err e),
   w.runs⟩

/-- Awaiting a wrapper: `then` delegates to the single `this.promise` cell,
so every await attaches to the same resolution and yields its settled value;
an await does not alter the wrapper or re-run any computation. -/
def awaitW (w : RAobj T E) : Except String (Res T E) :=
  w.settled

/-- The outcomes of `k` independent awaits issued against the same wrapper,
each one a call to `awaitW`. -/
def awaitTimes (w : RAobj T E) (k : Nat) : List (Except String (Res T E)) :=
  (List.range k).map (fun _ => w.awaitW)

end RAobj

-- ============================================================================
-- Formalization vocabulary for the aggregation claims
-- ============================================================================

/-- The `Ok` payload of a result, if any (used to state "the ordered list of
success payloads"). -/
def Res.okOf : Res T E → Option T
  | .ok v => Option.some v
  | .err _ => Option.none

/-- The `Err` payload of a result, if any (used to state "the ordered list of
error payloads"). -/
def Res.errOf : Res T E → Option E
  | .ok _ => Option.none
  | .err e => Option.some e

-- ============================================================================
-- Helper lemmas
-- ============================================================================

/-- Running the `all` loop across a block of fulfilled `Ok` handles appends
their payloads to the accumulator and counts one await per handle. -/
theorem ResultAsync.allGo_append_oks (vs : List T)
    (l : List (Except String (Res T E))) (acc : List T) (n : Nat) :
    ResultAsync.allGo (vs.map (fun v => Except.ok (Res.ok v)) ++ l) acc n =
      ResultAsync.allGo l (acc ++ vs) (n + vs.length) := by
  induction vs generalizing acc n with
  | nil => simp
  | cons v vs ih =>
      have h1 : (acc ++ [v]) ++ vs = acc ++ v :: vs := by simp
      have h2 : n + 1 + vs.length = n + (v :: vs).length := by
        simp only [List.length_cons]
        omega
      simp only [List.map_cons, List.cons_append, ResultAsync.allGo, List.append_eq]
      rw [ih, h1, h2]

/-- Running the `OptionAsync.all` loop across a block of fulfilled `Some`
handles appends their payloads and counts one await per handle. -/
theorem OptionAsync.allGo_append_somes (vs : List T)
    (l : List (Except String (Opt T))) (acc : List T) (n : Nat) :
    OptionAsync.allGo (vs.map (fun v => Except.ok (Opt.some v)) ++ l) acc n =
      OptionAsync.allGo l (acc ++ vs) (n + vs.length) := by
  induction vs generalizing acc n with
  | nil => simp
  | cons v vs ih =>
      have h1 : (acc ++ [v]) ++ vs = acc ++ v :: vs := by simp
      have h2 : n + 1 + vs.length = n + (v :: vs).length := by
        simp only [List.length_cons]
        omega
      simp only [List.map_cons, List.cons_append, OptionAsync.allGo, List.append_eq]
      rw [ih, h1, h2]

/-- Closed form of the `allSettled` loop on a list of fulfilled handles:
every handle is awaited, failures and successes are collected in index
order, and the final result is decided by whether any failure occurred. -/
theorem ResultAsync.allSettledGo_spec (l : List (Res T E)) (vs : List T)
    (es : List E) (n : Nat) :
    ResultAsync.allSettledGo (l.map Except.ok) vs es n =
      (if (es ++ l.filterMap Res.errOf).length > 0
        then .ok (.err (es ++ l.filterMap Res.errOf))
        else .ok (.ok (vs ++ l.filterMap Res.okOf)), n + l.length) := by
  induction l generalizing vs es n with
  | nil => simp [ResultAsync.allSettledGo]
  | cons r rest ih =>
      cases r with
      | ok v =>
          have h1 : (vs ++ [v]) ++ rest.filterMap Res.okOf =
              vs ++ v :: rest.filterMap Res.okOf := by simp
          have h2 : n + 1 + rest.length = n + (rest.length + 1) := by omega
          simp only [List.map_cons, ResultAsync.allSettledGo, ih,
            List.filterMap_cons, Res.okOf, Res.errOf, List.length_cons,
            List.append_eq]
          rw [h1, h2]
      | err e =>
          have h1 : (es ++ [e]) ++ rest.filterMap Res.errOf =
              es ++ e :: rest.filterMap Res.errOf := by simp
          have h2 : n + 1 + rest.length = n + (rest.length + 1) := by omega
          simp only [List.map_cons, ResultAsync.allSettledGo, ih,
            List.filterMap_cons, Res.okOf, Res.errOf, List.length_cons,
            List.append_eq]
          rw [h1, h2]

/-- Closed form of the `all` loop on a block consisting solely of fulfilled
`Ok` handles: every handle is awaited and the payloads are collected. -/
theorem ResultAsync.allGo_oks (ws : List T) (acc : List T) (n : Nat) :
    ResultAsync.allGo (E := E) (ws.map (fun v => Except.ok (Res.ok v))) acc n =
      (.ok (.ok (acc ++ ws)), n + ws.length) := by
  have h := ResultAsync.allGo_append_oks ws ([] : List (Except String (Res T E))) acc n
  simpa [ResultAsync.allGo] using h

/-- Closed form of the `OptionAsync.all` loop on a block of fulfilled `Some`
handles. -/
theorem OptionAsync.allGo_somes (ws : List T) (acc : List T) (n : Nat) :
    OptionAsync.allGo (ws.map (fun v => Except.ok (Opt.some v))) acc n =
      (.ok (.some (acc ++ ws)), n + ws.length) := by
  have h := OptionAsync.allGo_append_somes ws ([] : List (Except String (Opt T))) acc n
  simpa [OptionAsync.allGo] using h

/-- The number of awaits `awaitTimes` issues never changes the observed
value: all `k` awaits read the wrapper's single settlement. -/
theorem RAobj.awaitTimes_eq (w : RAobj T E) (k : Nat) :
    RAobj.awaitTimes w k = List.replicate k w.settled := by
  induction k with
  | zero => rfl
  | succ k ih =>
      simp only [RAobj.awaitTimes, List.range_succ, List.map_append,
        List.map_cons, List.map_nil] at ih ⊢
      rw [ih, RAobj.awaitW, ← List.replicate_succ']

-- ============================================================================
-- Claims
-- ============================================================================

/-- Claim C1: `all` awaits its handles in index order; the first `Err`
(resp. `None`) by index order becomes the aggregate's resolved value and the
handles after it are not awaited (only the first `k + 1` handles are awaited
when the failure sits behind `k` successes, whatever follows it); when every
handle succeeds, `all` resolves to `Ok` (resp. `Some`) of the list of
payloads in input order. -/
theorem claim_C1 (T E : Type) (vs ws : List T) (e : E)
    (rest : List (Except String (Res T E)))
    (os ps : List T) (orest : List (Except String (Opt T))) :
    ResultAsync.all
        (vs.map (fun v => Except.ok (Res.ok v)) ++ Except.ok (Res.err e) :: rest) =
      .ok (.err e)
    ∧ ResultAsync.allAwaited
        (vs.map (fun v => Except.ok (Res.ok v)) ++ Except.ok (Res.err e) :: rest) =
      vs.length + 1
    ∧ ResultAsync.all (E := E) (ws.map (fun v => Except.ok (Res.ok v))) = .ok (.ok ws)
    ∧ ResultAsync.allAwaited (E := E) (ws.map (fun v => Except.ok (Res.ok v))) = ws.length
    ∧ OptionAsync.all
        (os.map (fun v => Except.ok (Opt.some v)) ++ Except.ok Opt.none :: orest) =
      .ok .none
    ∧ OptionAsync.allAwaited
        (os.map (fun v => Except.ok (Opt.some v)) ++ Except.ok Opt.none :: orest) =
      os.length + 1
    ∧ OptionAsync.all (ps.map (fun v => Except.ok (Opt.some v))) = .ok (.some ps)
    ∧ OptionAsync.allAwaited (ps.map (fun v => Except.ok (Opt.some v))) = ps.length := by
  refine ⟨?_, ?_, ?_, ?_, ?_, ?_, ?_, ?_⟩
  · simp [ResultAsync.all, ResultAsync.allGo_append_oks, ResultAsync.allGo]
  · simp [ResultAsync.allAwaited, ResultAsync.allGo_append_oks, ResultAsync.allGo]
  · simp [ResultAsync.all, ResultAsync.allGo_oks]
  · simp [ResultAsync.allAwaited, ResultAsync.allGo_oks]
  · simp [OptionAsync.all, OptionAsync.allGo_append_somes, OptionAsync.allGo]
  · simp [OptionAsync.allAwaited, OptionAsync.allGo_append_somes, OptionAsync.allGo]
  · simp [OptionAsync.all, OptionAsync.allGo_somes]
  · simp [OptionAsync.allAwaited, OptionAsync.allGo_somes]

/-- Claim C2: `allSettled` awaits every handle (one await per handle, no
short-circuit); if any handle resolved to `Err`, the aggregate resolves to
`Err` of the whole ordered list of error payloads in index order, and only
when no handle failed does it resolve to `Ok` of the ordered successes. -/
theorem claim_C2 (T E : Type) (l : List (Res T E)) :
    ResultAsync.allSettledAwaited (l.map Except.ok) = l.length
    ∧ ResultAsync.allSettled (l.map Except.ok) =
        (match l.filterMap Res.errOf with
         | [] => .ok (.ok (l.filterMap Res.okOf))
         | es => .ok (.err es)) := by
  constructor
  · simp [ResultAsync.allSettledAwaited, ResultAsync.allSettledGo_spec]
  · simp only [ResultAsync.allSettled, ResultAsync.allSettledGo_spec,
      List.nil_append]
    cases h : l.filterMap Res.errOf with
    | nil => simp
    | cons e es => simp

/-- Claim C3: `Some(x).map(f).unwrap()` equals `f(x)`; on the absent variant
`map` and `and_then` return the absent variant with its payload preserved
and never invoke the callback — in the state-instrumented translations the
effect state comes back untouched for every callback. -/
theorem claim_C3 (T U E σ : Type) (x : T) (f : T → U) (s : σ)
    (fS : σ → T → σ × U) (g : T → Res U E) (e : E) (gS : σ → T → σ × Res U E) :
    Opt.unwrap (Opt.map (Opt.some x) f) = .ok (f x)
    ∧ Opt.map (Opt.none : Opt T) f = .none
    ∧ Opt.mapS (Opt.none : Opt T) s fS = (s, .none)
    ∧ Res.and_then (Res.err e : Res T E) g = .err e
    ∧ Res.and_thenS (Res.err e : Res T E) s gS = (s, .err e) :=
  ⟨rfl, rfl, rfl, rfl, rfl⟩

/-- Claim C4: on the matching variant `unwrap` and `expect` return the
payload; on the wrong variant they throw instead of returning, the async
wrapper versions turn that throw into a rejection of the whole pending
computation rather than a resolved absent value, and the failure raised by
`expect` carries the caller's message verbatim. -/
theorem claim_C4 (T E : Type) (v : T) (e : E) (msg : String) (es : E → String) :
    Opt.expect (Opt.some v) msg = .ok v
    ∧ Opt.unwrap (Opt.some v) = .ok v
    ∧ Opt.expect (Opt.none : Opt T) msg = .error msg
    ∧ Opt.unwrap (Opt.none : Opt T) = .error "Called Option.unwrap() on a None value"
    ∧ Res.expect (Res.ok v : Res T E) msg = .ok v
    ∧ Res.expect (Res.err e : Res T E) msg = .error msg
    ∧ Res.unwrap (Res.err e : Res T E) es =
        .error ("Called Result.unwrap() on an Err value: " ++ es e)
    ∧ OptionAsync.expect (.ok (Opt.some v)) msg = .ok v
    ∧ OptionAsync.unwrap (.ok (Opt.some v)) = .ok v
    ∧ OptionAsync.expect (.ok (Opt.none : Opt T)) msg = .error msg
    ∧ OptionAsync.unwrap (.ok (Opt.none : Opt T)) =
        .error "Called Option.unwrap() on a None value"
    ∧ ResultAsync.expect (.ok (Res.ok v : Res T E)) msg = .ok v
    ∧ ResultAsync.expect (.ok (Res.err e : Res T E)) msg = .error msg
    ∧ ResultAsync.unwrap (.ok (Res.err e : Res T E)) es =
        .error ("Called Result.unwrap() on an Err value: " ++ es e) :=
  ⟨rfl, rfl, rfl, rfl, rfl, rfl, rfl, rfl, rfl, rfl, rfl, rfl, rfl, rfl⟩

/-- Claim C5: an exception thrown (synchronously or asynchronously) by the
callback of a `try`-style constructor is caught and becomes the
failure-carrying variant of the resolved value — `None` for
`OptionAsync.try`, `Err` of the caught value (or of its image under the
optional mapping function) for `ResultAsync.try` — and a normally returned
value becomes the success variant; the constructor's own promise fulfils in
every case. -/
theorem claim_C5 (T E ε : Type) (v : T) (ex : ε) (ef : ε → E) :
    ResultAsync.tryCatchWith (.error ex : Except ε T) ef = .ok (.err (ef ex))
    ∧ ResultAsync.tryCatchWith (.ok v : Except ε T) ef = .ok (.ok v)
    ∧ ResultAsync.tryCatch (.error ex : Except ε T) = .ok (.err ex)
    ∧ ResultAsync.tryCatch (.ok v : Except ε T) = .ok (.ok v)
    ∧ OptionAsync.tryCatch (.error ex : Except ε T) = .ok .none
    ∧ OptionAsync.tryCatch (.ok v : Except ε T) = .ok (.some v) :=
  ⟨rfl, rfl, rfl, rfl, rfl, rfl⟩

/-- Claim C6 (evaluation at the failing input): `take()` on `Some(42)`
returns `Some(42)` but leaves the receiver an `OptionSome` object whose
`value` field holds `undefined` — a state on which `is_none()` is still
`false`, so the receiver is not the absent variant `None` that the claim
and the method's own documentation promise; on `None`, `take()` is indeed a
no-op returning `None`. -/
theorem claim_C6 :
    OptObj.take (OptObj.someObj (Option.some 42)) =
      (OptObj.someObj Option.none, OptObj.someObj (Option.some 42))
    ∧ OptObj.is_none (OptObj.someObj (Option.none : Option Nat)) = false
    ∧ OptObj.is_some (OptObj.someObj (Option.none : Option Nat)) = true
    ∧ OptObj.take (OptObj.noneObj : OptObj Nat) = (OptObj.noneObj, OptObj.noneObj) := by
  refine ⟨rfl, rfl, rfl, rfl⟩

/-- Claim C7: `replace(v)` on `Some(x)` stores `v` in the receiver and
returns the old value as `Some(x)`; `replace(v)` on `None` returns `Some(v)`
and leaves the receiver `None`. -/
theorem claim_C7 (T : Type) (x v : T) :
    OptObj.replace v (OptObj.someObj (Option.some x)) =
      (OptObj.someObj (Option.some v), OptObj.someObj (Option.some x))
    ∧ OptObj.replace v (OptObj.noneObj : OptObj T) =
      (OptObj.noneObj, OptObj.someObj (Option.some v)) :=
  ⟨rfl, rfl⟩

/-- Claim C8: lifting a synchronous `Result` or `Option` with `toAsync()`
wraps it in an already-fulfilled promise, so awaiting the wrapper yields
exactly the original value. -/
theorem claim_C8 (T E : Type) (r : Res T E) (o : Opt T) :
    Res.toAsync r = .ok r ∧ Opt.toAsync o = .ok o :=
  ⟨rfl, rfl⟩

/-- Claim C9: a wrapper resolves at most once — any number `k` of awaits all
observe the one settlement; a side-effecting callback attached once via
`inspect` runs exactly once more than it already had, however many awaits
are issued; and chaining (`inspect`, `map`) yields a new wrapper over the
same single resolution without re-running earlier callbacks. -/
theorem claim_C9 (T E U : Type) (w : RAobj T E) (label k : Nat) (f : T → U) :
    RAobj.awaitTimes w k = List.replicate k w.settled
    ∧ (RAobj.inspectW w label).settled = w.settled
    ∧ List.count label (RAobj.inspectW w label).runs =
        List.count label w.runs +
          (match w.settled with
           | .ok (Res.ok _) => 1
           | _ => 0)
    ∧ (RAobj.mapW (RAobj.inspectW w label) f).runs = (RAobj.inspectW w label).runs
    ∧ RAobj.awaitTimes (RAobj.inspectW w label) k = List.replicate k w.settled := by
  refine ⟨RAobj.awaitTimes_eq w k, rfl, ?_, rfl, ?_⟩
  · rcases w with ⟨settled, runs⟩
    cases settled with
    | error x => simp [RAobj.inspectW]
    | ok r =>
        cases r with
        | ok v => simp [RAobj.inspectW, List.count_append]
        | err e => simp [RAobj.inspectW]
  · have h := RAobj.awaitTimes_eq (RAobj.inspectW w label) k
    simpa [RAobj.inspectW] using h

/-- Claim C10: on the empty input list every aggregation combinator resolves
to the success variant holding the empty array: `ResultAsync.all([])` and
`ResultAsync.allSettled([])` resolve to `Ok([])`, `OptionAsync.all([])` to
`Some([])`. -/
theorem claim_C10 (T E : Type) :
    ResultAsync.all ([] : List (Except String (Res T E))) = .ok (.ok [])
    ∧ ResultAsync.allSettled ([] : List (Except String (Res T E))) = .ok (.ok [])
    ∧ OptionAsync.all ([] : List (Except String (Opt T))) = .ok (.some []) :=
  ⟨rfl, rfl, rfl⟩
